import Mathlib

/-!
Verification of the SillyTavern-Chloe account ledger and entitlement state
machine against its specification.

The definitions below are a shallow embedding of the JavaScript sources:

* src/src/endpoints/account.js        (account ledger routes and helpers)
* src/src/endpoints/users-public.js   (password registration)
* src/unnamed/part_000                (OAuth flow, ensureUser, invite validation)
* src/unnamed/part_001                (admin console: points, codes, config)

Timestamps are epoch milliseconds modelled as integers.  Point balances are
JavaScript numbers modelled as rationals.  The server timezone offset (the
difference between server-local clock and UTC introduced by Date.setHours)
is threaded explicitly as the parameter tz, in milliseconds, with
local time = instant + tz.  JavaScript truthiness of stored number-or-null
fields (0 and null both falsy) is modelled explicitly at each use site.
-/

/-- Milliseconds per day (MS_PER_DAY in account.js). -/
def MS_PER_DAY : ℤ := 86400000

/-- Cooldown for the daily check-in, 24 hours (COOLDOWN_MS in account.js). -/
def COOLDOWN_MS : ℤ := 86400000

/-- JavaScript Math.round: rounds to the nearest integer, halves toward
positive infinity. -/
def jsRound (q : ℚ) : ℤ := ⌊q + 1/2⌋

/-- Rounding to the nearest half unit, the ubiquitous
Math.round(x * 2) / 2 idiom of the sources. -/
def roundHalf (q : ℚ) : ℚ := (jsRound (q * 2) : ℚ) / 2

/-- Server-local midnight of an instant: Date.setHours(0,0,0,0) on a server
whose local clock is UTC plus tz milliseconds (todayMidnight in account.js). -/
def todayMidnight (tz ts : ℤ) : ℤ := ts - (ts + tz) % MS_PER_DAY

/-- Proleptic Gregorian date of a day number counted from 1970-01-01
(year, month, day).  Standard civil-from-days conversion, used to model
what Date getFullYear, getMonth and getDate return. -/
def civilFromDays (z : ℤ) : ℤ × ℤ × ℤ :=
  let z2 := z + 719468
  let era := z2.fdiv 146097
  let doe := z2 - era * 146097
  let yoe := (doe - doe.fdiv 1460 + doe.fdiv 36524 - doe.fdiv 146096).fdiv 365
  let y := yoe + era * 400
  let doy := doe - (365 * yoe + yoe.fdiv 4 - yoe.fdiv 100)
  let mp := (5 * doy + 2).fdiv 153
  let d := doy - (153 * mp + 2).fdiv 5 + 1
  let m := mp + (if mp < 10 then 3 else -9)
  (y + (if m ≤ 2 then 1 else 0), m, d)

/-- Day number from a proleptic Gregorian date, inverse of civilFromDays. -/
def daysFromCivil (y m d : ℤ) : ℤ :=
  let y2 := y - (if m ≤ 2 then 1 else 0)
  let era := y2.fdiv 400
  let yoe := y2 - era * 400
  let doy := (153 * (m + (if m > 2 then -3 else 9)) + 2).fdiv 5 + d - 1
  let doe := yoe * 365 + yoe.fdiv 4 - yoe.fdiv 100 + doy
  era * 146097 + doe - 719468

/-- Two-digit zero padding of a month or day (String.padStart(2, 0)). -/
def pad2 (n : ℤ) : String := if n < 10 then "0" ++ toString n else toString n

/-- Server-local calendar date string YYYY-MM-DD of an instant
(toDateString in account.js). -/
def toDateString (tz ts : ℤ) : String :=
  let c := civilFromDays ((ts + tz).fdiv MS_PER_DAY)
  toString c.1 ++ "-" ++ pad2 c.2.1 ++ "-" ++ pad2 c.2.2

/-- Leap year test for the Gregorian calendar. -/
def isLeapYear (y : ℕ) : Bool := (y % 4 == 0 && y % 100 != 0) || y % 400 == 0

/-- Number of days in a month of a given year. -/
def daysInMonth (y m : ℕ) : ℕ :=
  if m = 2 then (if isLeapYear y then 29 else 28)
  else if m = 4 ∨ m = 6 ∨ m = 9 ∨ m = 11 then 30 else 31

/-- Date.parse of the legacy check-in date string with a T00:00:00Z suffix:
accepts an ISO YYYY-MM-DD date and yields its UTC midnight in epoch
milliseconds, none on any malformed input (NaN in JavaScript). -/
def parseLegacyCheckInDate (s : String) : Option ℤ :=
  match s.splitOn "-" with
  | [ys, ms, ds] =>
    if ys.length = 4 ∧ ms.length = 2 ∧ ds.length = 2 ∧
        ys.all Char.isDigit ∧ ms.all Char.isDigit ∧ ds.all Char.isDigit then
      match ys.toNat?, ms.toNat?, ds.toNat? with
      | some y, some m, some d =>
        if 1 ≤ m ∧ m ≤ 12 ∧ 1 ≤ d ∧ d ≤ daysInMonth y m then
          some (daysFromCivil y m d * MS_PER_DAY)
        else none
      | _, _, _ => none
    else none
  | _ => none

/-- The per-handle account ledger record (AccountState in account.js).
Number-or-null fields of the source are Option valued; lastCostAppliedAt
and createdAt are plain numbers in the source, with 0 playing the
JavaScript-falsy role where the code tests them for truthiness. -/
structure AccountState where
  handle : String
  points : ℚ
  accessOn : Bool
  lastCostAppliedAt : ℤ
  lastCheckInDate : String
  lastCheckInAt : Option ℤ
  accessOffSince : Option ℤ
  createdAt : ℤ
  deriving Repr, DecidableEq

/-- The default ledger created on first access (getOrInitState, miss case). -/
def initialState (tz now : ℤ) (handle : String) : AccountState :=
  { handle := handle
    points := 20
    accessOn := true
    lastCostAppliedAt := todayMidnight tz now
    lastCheckInDate := ""
    lastCheckInAt := none
    accessOffSince := none
    createdAt := now }

/-- getOrInitState: returns the stored ledger, creating the default one when
absent. -/
def getOrInitState (tz now : ℤ) (handle : String) : Option AccountState → AccountState
  | some s => s
  | none => initialState tz now handle

/-- JavaScript truthiness of a stored number-or-null field: non-null and
nonzero. -/
def numTruthy : Option ℤ → Bool
  | some v => v != 0
  | none => false

/-- The baseline instant costs have been applied up to:
state.lastCostAppliedAt with a fallback to the creation-day midnight
(or the current instant) through JavaScript or-chaining on falsy values. -/
def costBaseline (tz now : ℤ) (s : AccountState) : ℤ :=
  if s.lastCostAppliedAt ≠ 0 then s.lastCostAppliedAt
  else todayMidnight tz (if s.createdAt ≠ 0 then s.createdAt else now)

/-- The 30-day purge trigger tested by applyDailyCosts after cost
application: access is off, accessOffSince is truthy, and at least
30 days have elapsed since it. -/
def purgeDue (now : ℤ) (s : AccountState) : Bool :=
  !s.accessOn &&
    (match s.accessOffSince with
     | some off => off != 0 && decide (30 * MS_PER_DAY ≤ now - off)
     | none => false)

/-- Result of applyDailyCosts: the updated ledger and whether the purge
fired during the call. -/
structure CostResult where
  state : AccountState
  purged : Bool
  deriving Repr, DecidableEq

/-- applyDailyCosts of account.js: clamps a future baseline to the current
day boundary, otherwise deducts one point per whole elapsed day while access
is on (clamped at zero and rounded to the nearest half), advances the
baseline by exactly the elapsed whole days, and finally fires the 30-day
purge reset when due.  The purge reset zeroes the points, keeps access off,
clears the legacy check-in date string, and restamps accessOffSince and
lastCostAppliedAt to the current day boundary. -/
def applyDailyCosts (tz now : ℤ) (s : AccountState) : CostResult :=
  let nowMid := todayMidnight tz now
  let appliedFrom := costBaseline tz now s
  if appliedFrom > nowMid then
    { state := { s with lastCostAppliedAt := nowMid }, purged := false }
  else
    let days := (nowMid - appliedFrom).fdiv MS_PER_DAY
    let s1 :=
      if 0 < days then
        let rate : ℚ := if s.accessOn then 1 else 0
        { s with
            points := max 0 (roundHalf (s.points - (days : ℚ) * rate))
            lastCostAppliedAt := appliedFrom + days * MS_PER_DAY }
      else s
    if purgeDue now s1 then
      { state :=
          { s1 with
              points := 0
              accessOn := false
              lastCheckInDate := ""
              accessOffSince := some nowMid
              lastCostAppliedAt := nowMid }
        purged := true }
    else { state := s1, purged := false }

/-- Result of applyDailyCosts at the storage level: the ledger, whether the
identity record (user:handle) is still present, and the purge flag. -/
structure StoreCostResult where
  state : AccountState
  userPresent : Bool
  purged : Bool
  deriving Repr, DecidableEq

/-- purgeUserData removes the identity record and the content directory,
swallowing errors; only the identity record is modelled. -/
def purgeUserData (_userPresent : Bool) : Bool := false

/-- applyDailyCosts together with its purge side effect on the identity
record: when the purge fires, purgeUserData removes the user record. -/
def applyDailyCostsStore (tz now : ℤ) (s : AccountState) (userPresent : Bool) :
    StoreCostResult :=
  let r := applyDailyCosts tz now s
  { state := r.state
    userPresent := if r.purged then purgeUserData userPresent else userPresent
    purged := r.purged }

/-- Errors surfaced to the caller by the routes that the claims mention. -/
inductive ApiError where
  | cooldown (nextCheckInAt : ℤ)
  | insufficientPoints
  | missingInput
  | invalidAmount
  | userNotFound
  | codeNotFound
  | codeUsed
  | codeExpired
  | userExists
  | handleTooShort
  | handleReserved
  | registrationDisabled
  deriving Repr, DecidableEq

/-- Outcome of a route: a success payload or an error response. -/
inductive OpResult (α : Type) where
  | ok (v : α)
  | err (e : ApiError)
  deriving Repr, DecidableEq

/-- The check-in instant the cooldown is measured from: lastCheckInAt, with
a best-effort migration from the legacy date string when the former is null
and the latter nonempty. -/
def effectiveLastCheckIn (s : AccountState) : Option ℤ :=
  match s.lastCheckInAt with
  | some t => some t
  | none => if s.lastCheckInDate = "" then none else parseLegacyCheckInDate s.lastCheckInDate

/-- Success payload of the check-in route. -/
structure CheckinOk where
  points : ℚ
  lastCheckInAt : ℤ
  nextCheckInAt : ℤ
  deriving Repr, DecidableEq

/-- Final ledger and response of the check-in route. -/
structure CheckinOut where
  state : AccountState
  result : OpResult CheckinOk
  deriving Repr, DecidableEq

/-- The crediting tail of the check-in route: plus five points rounded to
the half, lastCheckInAt stamped to now, legacy date refreshed. -/
def checkinCredit (tz now : ℤ) (s1 : AccountState) : CheckinOut :=
  let s2 :=
    { s1 with
        points := roundHalf (s1.points + 5)
        lastCheckInAt := some now
        lastCheckInDate := toDateString tz now }
  { state := s2, result := .ok { points := s2.points, lastCheckInAt := now, nextCheckInAt := now + COOLDOWN_MS } }

/-- The check-in route: applies daily costs, rejects with a cooldown error
naming the next eligible instant while the rolling 24-hour window since the
effective last check-in has not elapsed, otherwise credits five points. -/
def checkin (tz now : ℤ) (handle : String) (s0 : Option AccountState) : CheckinOut :=
  let s1 := (applyDailyCosts tz now (getOrInitState tz now handle s0)).state
  match effectiveLastCheckIn s1 with
  | some t =>
    if now - t < COOLDOWN_MS then
      { state := s1, result := .err (.cooldown (t + COOLDOWN_MS)) }
    else checkinCredit tz now s1
  | none => checkinCredit tz now s1

/-- Success payload of the toggle route. -/
structure ToggleOk where
  accessOn : Bool
  points : ℚ
  deriving Repr, DecidableEq

/-- Final ledger and response of the toggle route. -/
structure ToggleOut where
  state : AccountState
  result : OpResult ToggleOk
  deriving Repr, DecidableEq

/-- The toggle route: applies daily costs, no-ops when the desired flag is
already current; turning on demands at least one point and deducts one as
an activation fee, clearing accessOffSince; turning off always succeeds and
stamps accessOffSince with the current instant. -/
def toggleAccess (tz now : ℤ) (handle : String) (desired : Bool) (s0 : Option AccountState) :
    ToggleOut :=
  let s1 := (applyDailyCosts tz now (getOrInitState tz now handle s0)).state
  if s1.accessOn = desired then
    { state := s1, result := .ok { accessOn := s1.accessOn, points := s1.points } }
  else if desired then
    if s1.points < 1 then { state := s1, result := .err .insufficientPoints }
    else
      let s2 :=
        { s1 with
            points := max 0 (roundHalf (s1.points - 1))
            accessOn := true
            accessOffSince := none }
      { state := s2, result := .ok { accessOn := true, points := s2.points } }
  else
    let s2 := { s1 with accessOn := false, accessOffSince := some now }
    { state := s2, result := .ok { accessOn := false, points := s2.points } }

/-- A stored redeem code record (RedeemCode in the admin module). -/
structure RedeemCodeRec where
  code : String
  points : ℚ
  used : Bool
  usedBy : Option String
  createdAt : ℤ
  usedAt : Option ℤ
  deriving Repr, DecidableEq

/-- Success payload of the redeem route. -/
structure RedeemOk where
  points : ℚ
  addedPoints : ℚ
  deriving Repr, DecidableEq

/-- Storage after the redeem route: the code record slot, the account slot,
and the response.  The two slots stand for the storage keys redeem:CODE and
account:handle. -/
structure RedeemOut where
  codeRec : Option RedeemCodeRec
  account : Option AccountState
  result : OpResult RedeemOk
  deriving Repr, DecidableEq

/-- The redeem route: rejects an empty code, a missing record, or a used
record; otherwise marks the code used with usedBy and usedAt, then applies
daily costs to the ledger and credits the code points rounded to the half. -/
def redeem (tz now : ℤ) (handle code : String) (codeRec : Option RedeemCodeRec)
    (s0 : Option AccountState) : RedeemOut :=
  if code = "" then { codeRec := codeRec, account := s0, result := .err .missingInput }
  else
    match codeRec with
    | none => { codeRec := none, account := s0, result := .err .codeNotFound }
    | some rec =>
      if rec.used then { codeRec := some rec, account := s0, result := .err .codeUsed }
      else
        let rec2 := { rec with used := true, usedBy := some handle, usedAt := some now }
        let s1 := (applyDailyCosts tz now (getOrInitState tz now handle s0)).state
        let s2 := { s1 with points := roundHalf (s1.points + rec.points) }
        { codeRec := some rec2
          account := some s2
          result := .ok { points := s2.points, addedPoints := rec.points } }

/-- Status payload of the status route. -/
structure StatusPayload where
  points : ℚ
  accessOn : Bool
  offDays : ℤ
  canCheckInToday : Bool
  nextCheckInAt : ℤ
  purged : Bool
  deriving Repr, DecidableEq

/-- Storage and payload after the status route. -/
structure StatusOut where
  state : AccountState
  userPresent : Bool
  payload : StatusPayload
  deriving Repr, DecidableEq

/-- buildStatus of account.js: applies daily costs (with its purge side
effect), then derives off-day count, check-in eligibility under the rolling
24-hour window, and the one-time purge flag recomputed from the pre-call
accessOffSince. -/
def buildStatus (tz now : ℤ) (handle : String) (s0 : Option AccountState)
    (userPresent : Bool) : StatusOut :=
  let s := getOrInitState tz now handle s0
  let beforeOffSince := s.accessOffSince
  let r := applyDailyCostsStore tz now s userPresent
  let s1 := r.state
  let offDays : ℤ :=
    match s1.accessOffSince with
    | some off =>
      if s1.accessOn || off == 0 then 0
      else (todayMidnight tz now - todayMidnight tz off).fdiv MS_PER_DAY
    | none => 0
  let last := effectiveLastCheckIn s1
  let canCheckInToday :=
    match last with
    | none => true
    | some t => decide (COOLDOWN_MS ≤ now - t)
  let nextCheckInAt :=
    match last with
    | none => now
    | some t => t + COOLDOWN_MS
  let didPurge :=
    match beforeOffSince with
    | some b => b != 0 && !s1.accessOn && decide (30 * MS_PER_DAY ≤ now - b)
    | none => false
  { state := s1
    userPresent := r.userPresent
    payload :=
      { points := s1.points
        accessOn := s1.accessOn
        offDays := offDays
        canCheckInToday := canCheckInToday
        nextCheckInAt := nextCheckInAt
        purged := didPurge } }

/-- Verdict of the page gate. -/
inductive AccessDecision where
  | allowed
  | denied (reason : String)
  deriving Repr, DecidableEq

/-- getEffectiveAccess of account.js: not logged in, access off, or an empty
balance each deny; otherwise allowed.  Daily costs are applied first. -/
def getEffectiveAccess (tz now : ℤ) (loggedIn : Bool) (handle : String)
    (s0 : Option AccountState) : Option AccountState × AccessDecision :=
  if !loggedIn then (s0, .denied "NOT_LOGGED_IN")
  else
    let s1 := (applyDailyCosts tz now (getOrInitState tz now handle s0)).state
    if !s1.accessOn then (some s1, .denied "OFF")
    else if s1.points ≤ 0 then (some s1, .denied "NO_POINTS")
    else (some s1, .allowed)

/-- Administrative point adjustment actions. -/
inductive AdjustAction where
  | add
  | subtract
  | set
  deriving Repr, DecidableEq

/-- The admin points route: validates a nonnegative amount, requires an
existing ledger, then adds, subtracts with a clamp at zero, or sets, and
rounds the result to the half. -/
def adminAdjustPoints (action : AdjustAction) (amount : ℚ) (s0 : Option AccountState) :
    Option AccountState × OpResult ℚ :=
  if amount < 0 then (s0, .err .invalidAmount)
  else
    match s0 with
    | none => (none, .err .userNotFound)
    | some a =>
      let np :=
        match action with
        | .add => a.points + amount
        | .subtract => max 0 (a.points - amount)
        | .set => amount
      let a2 := { a with points := roundHalf np }
      (some a2, .ok a2.points)

/-- A stored invite code record (InviteCode in the admin module). -/
structure InviteCodeRec where
  code : String
  used : Bool
  usedBy : Option String
  createdAt : ℤ
  usedAt : Option ℤ
  expiresAt : Option ℤ
  deriving Repr, DecidableEq

/-- The admin route deleting a redeem code: a missing record is a not-found
error; otherwise the record is removed unconditionally, used or not. -/
def deleteRedeemCode (rec : Option RedeemCodeRec) : Option RedeemCodeRec × OpResult Unit :=
  match rec with
  | none => (none, .err .codeNotFound)
  | some _ => (none, .ok ())

/-- The admin route deleting an invite code: a missing record is a not-found
error, a used record is rejected and kept, an unused one is removed. -/
def deleteInviteCode (rec : Option InviteCodeRec) : Option InviteCodeRec × OpResult Unit :=
  match rec with
  | none => (none, .err .codeNotFound)
  | some r => if r.used then (some r, .err .codeUsed) else (none, .ok ())

/-- The collision-retry loop shared by both code-creation routes.  The
candidate stream stands for the successive outputs of generateRedeemCode,
the lookup for a storage hit on the corresponding key.  Returns the final
candidate and the attempt counter; fuel is structural and chosen by the
callers so that it never runs out before the attempt bound. -/
def genLoopGo (hit : String → Bool) (cand : ℕ → String) (limit : ℕ) :
    String → ℕ → ℕ → String × ℕ
  | code, attempts, 0 => (code, attempts)
  | code, attempts, fuel + 1 =>
    if hit code ∧ attempts < limit then
      genLoopGo hit cand limit (cand (attempts + 1)) (attempts + 1) fuel
    else (code, attempts)

/-- The collision-retry loop started on the first candidate with a zeroed
attempt counter. -/
def genLoop (hit : String → Bool) (cand : ℕ → String) (limit : ℕ) : String × ℕ :=
  genLoopGo hit cand limit (cand 0) 0 (limit + 1)

/-- Outcome of creating one code. -/
inductive GenOutcome where
  | stored (code : String)
  | failed
  deriving Repr, DecidableEq

/-- One iteration of the redeem-code creation route: retries on collision
while the attempt counter stays below 10, then stores whatever candidate the
loop ended on, without rechecking it for a collision. -/
def createOneRedeemCode (hit : String → Bool) (cand : ℕ → String) : GenOutcome :=
  .stored (genLoop hit cand 10).1

/-- One iteration of the invite-code creation route: retries on collision
while the attempt counter stays below 50 and answers a server failure when
the attempt counter reached 50. -/
def createOneInviteCode (hit : String → Bool) (cand : ℕ → String) : GenOutcome :=
  let r := genLoop hit cand 50
  if 50 ≤ r.2 then .failed else .stored r.1

/-- validateInviteCode of the OAuth module: the code must be a nonempty
string naming a stored, unused record whose expiry is absent, zero, or in
the future. -/
def validateInviteCode (now : ℤ) (code : Option String) (rec : Option InviteCodeRec) : Bool :=
  match code with
  | none => false
  | some c =>
    if c = "" then false
    else
      match rec with
      | none => false
      | some r =>
        if r.used then false
        else
          match r.expiresAt with
          | some e => !(e != 0 && decide (e < now))
          | none => true

/-- markInviteCodeAsUsed: stamps used, usedBy and usedAt when the record
exists. -/
def markInviteCodeAsUsed (now : ℤ) (usedBy : String) :
    Option InviteCodeRec → Option InviteCodeRec
  | some r => some { r with used := true, usedBy := some usedBy, usedAt := some now }
  | none => none

/-- Outcome of ensureUser: whether it completed (false means the
REGISTRATION_DISABLED error was thrown), whether a fresh identity record
was written, and the invite record afterwards. -/
structure EnsureUserOut where
  completed : Bool
  userCreated : Bool
  inviteRec : Option InviteCodeRec
  deriving Repr, DecidableEq

/-- ensureUser of the OAuth module: an existing identity passes through
untouched; a new one is admitted when registration is enabled or a valid
invite code accompanies the request, in which case the invite is marked
used; otherwise the REGISTRATION_DISABLED error is thrown. -/
def ensureUser (now : ℤ) (handle : String) (inviteCode : Option String)
    (userExists registrationEnabled : Bool) (inviteRec : Option InviteCodeRec) :
    EnsureUserOut :=
  if userExists then { completed := true, userCreated := false, inviteRec := inviteRec }
  else
    let hasValidInviteCode :=
      match inviteCode with
      | some c => c ≠ "" && validateInviteCode now (some c) inviteRec
      | none => false
    if !registrationEnabled && !hasValidInviteCode then
      { completed := false, userCreated := false, inviteRec := inviteRec }
    else
      { completed := true
        userCreated := true
        inviteRec :=
          if hasValidInviteCode then markInviteCodeAsUsed now handle inviteRec
          else inviteRec }

/-- Character sanitization of a registration handle: lowercase letters,
digits, dash and underscore survive, anything else becomes a dash. -/
def sanitizeChar (c : Char) : Char :=
  if (Char.ofNat 97 ≤ c ∧ c ≤ Char.ofNat 122) ∨ c.isDigit ∨ c = Char.ofNat 45 ∨ c = Char.ofNat 95
  then c else Char.ofNat 45

/-- Collapses runs of two or more dashes into a single dash. -/
def collapseDashes : List Char → List Char
  | [] => []
  | [c] => [c]
  | c :: d :: rest =>
    if c = Char.ofNat 45 ∧ d = Char.ofNat 45 then collapseDashes (d :: rest)
    else c :: collapseDashes (d :: rest)

/-- Strips leading and trailing dashes. -/
def trimDashes (l : List Char) : List Char :=
  ((l.dropWhile (· = Char.ofNat 45)).reverse.dropWhile (· = Char.ofNat 45)).reverse

/-- The handle normalization of the register route: lowercase, sanitize,
collapse dashes, trim dashes, truncate to 64 characters, and fall back to a
random user-suffix name when everything was stripped away. -/
def sanitizeRegHandle (h randSuffix : String) : String :=
  let ls := (trimDashes (collapseDashes ((h.toList.map Char.toLower).map sanitizeChar))).take 64
  if ls.isEmpty then "user-" ++ randSuffix else String.mk ls

/-- The username blacklist of users-public.js. -/
def usernameBlacklist : List String :=
  ["admin", "administrator", "root", "system", "moderator", "mod",
   "owner", "support", "help", "service", "api", "www", "ftp",
   "mail", "email", "webmaster", "postmaster", "hostmaster",
   "null", "undefined", "none", "test", "demo", "guest",
   "anonymous", "bot", "robot", "official", "staff"]

/-- The reserved substrings rejected inside a registration handle. -/
def sensitivePatterns : List String := ["admin", "moderator", "support", "official"]

/-- Prefix test on character lists. -/
def listPrefixOf : List Char → List Char → Bool
  | [], _ => true
  | _ :: _, [] => false
  | a :: as, b :: bs => a == b && listPrefixOf as bs

/-- Substring occurrence (String.includes of the route): the pattern occurs
somewhere in s. -/
def containsSubstring (s pat : String) : Bool :=
  s.toList.tails.any fun t => listPrefixOf pat.toList t

/-- Storage and response after the password registration route: the result
carrying the final handle on success, the invite record slot, and whether an
identity record was written. -/
structure RegisterOut where
  result : OpResult String
  inviteRec : Option InviteCodeRec
  userCreated : Bool
  deriving Repr, DecidableEq

/-- The register route of users-public.js: validates the body, normalizes
the handle, rejects blacklisted or reserved handles, validates the invite
code (existence, unused, unexpired), rejects a taken handle, then creates
the identity record and marks the invite used.  The global
registrationEnabled flag is accepted here to show it is never consulted:
the route reads everything else from the request and the store but not it. -/
def register (now : ℤ) (code handle password _name : Option String)
    (randSuffix : String) (_registrationEnabled : Bool)
    (inviteRec : Option InviteCodeRec) (userExists : Bool) : RegisterOut :=
  match code with
  | none => { result := .err .missingInput, inviteRec := inviteRec, userCreated := false }
  | some c =>
    if c = "" then { result := .err .missingInput, inviteRec := inviteRec, userCreated := false }
    else
      match handle with
      | none => { result := .err .missingInput, inviteRec := inviteRec, userCreated := false }
      | some h =>
        if h = "" then { result := .err .missingInput, inviteRec := inviteRec, userCreated := false }
        else
          match password with
          | none => { result := .err .missingInput, inviteRec := inviteRec, userCreated := false }
          | some p =>
            if p.length < 6 then
              { result := .err .missingInput, inviteRec := inviteRec, userCreated := false }
            else
              let finalHandle := sanitizeRegHandle h randSuffix
              if finalHandle.length < 3 then
                { result := .err .handleTooShort, inviteRec := inviteRec, userCreated := false }
              else if usernameBlacklist.contains finalHandle then
                { result := .err .handleReserved, inviteRec := inviteRec, userCreated := false }
              else if sensitivePatterns.any (fun pat => containsSubstring finalHandle pat) then
                { result := .err .handleReserved, inviteRec := inviteRec, userCreated := false }
              else
                match inviteRec with
                | none => { result := .err .codeNotFound, inviteRec := none, userCreated := false }
                | some inv =>
                  if inv.used then
                    { result := .err .codeUsed, inviteRec := some inv, userCreated := false }
                  else if (match inv.expiresAt with
                           | some e => e != 0 && decide (e < now)
                           | none => false) then
                    { result := .err .codeExpired, inviteRec := some inv, userCreated := false }
                  else if userExists then
                    { result := .err .userExists, inviteRec := some inv, userCreated := false }
                  else
                    { result := .ok finalHandle
                      inviteRec := some { inv with
                        used := true, usedBy := some finalHandle, usedAt := some now }
                      userCreated := true }

/-- The ledger-mutating operations quantified over by the points invariant:
lazy initialization is initialState, the rest are the routes above.  The
redeem operation is run against a synthetic unused code record carrying the
given point value, as created by the admin route. -/
inductive LedgerOp where
  | costs (tz now : ℤ)
  | checkinOp (tz now : ℤ)
  | toggleOp (tz now : ℤ) (desired : Bool)
  | redeemOp (tz now : ℤ) (codePoints : ℚ)
  | adjustOp (action : AdjustAction) (amount : ℚ)
  deriving Repr, DecidableEq

/-- The ledger after one operation, successful or not: the persisted account
record that the route leaves behind. -/
def LedgerOp.step : LedgerOp → AccountState → AccountState
  | .costs tz now, s => (applyDailyCosts tz now s).state
  | .checkinOp tz now, s => (checkin tz now s.handle (some s)).state
  | .toggleOp tz now d, s => (toggleAccess tz now s.handle d (some s)).state
  | .redeemOp tz now cp, s =>
    (redeem tz now s.handle "C"
      (some { code := "C", points := cp, used := false, usedBy := none,
              createdAt := 0, usedAt := none })
      (some s)).account.getD s
  | .adjustOp act amt, s => ((adminAdjustPoints act amt (some s)).1).getD s

/-- Side conditions the store enforces elsewhere: redeem codes are created
with positive point values and the admin route validates a nonnegative
amount. -/
def LedgerOp.valid : LedgerOp → Bool
  | .redeemOp _ _ cp => decide (0 < cp)
  | .adjustOp _ amt => decide (0 ≤ amt)
  | _ => true

/-- Nonnegative and a multiple of one half: the points invariant of the
specification. -/
def PointsInv (q : ℚ) : Prop := 0 ≤ q ∧ ∃ n : ℤ, q = (n : ℚ) / 2

/-! ### Arithmetic helper lemmas -/

theorem jsRound_intCast (n : ℤ) : jsRound (n : ℚ) = n := by
  unfold jsRound
  rw [Int.floor_int_add]
  norm_num

theorem roundHalf_eq_self {q : ℚ} (h : ∃ n : ℤ, q = (n : ℚ) / 2) : roundHalf q = q := by
  obtain ⟨n, rfl⟩ := h
  unfold roundHalf
  have h2 : (n : ℚ) / 2 * 2 = (n : ℚ) := by ring
  rw [h2, jsRound_intCast]

theorem roundHalf_nonneg {q : ℚ} (h : 0 ≤ q) : 0 ≤ roundHalf q := by
  unfold roundHalf
  have h2 : (0 : ℤ) ≤ jsRound (q * 2) := by
    unfold jsRound
    refine Int.le_floor.mpr ?_
    push_cast
    linarith
  exact div_nonneg (by exact_mod_cast h2) (by norm_num)

theorem roundHalf_halfStep (q : ℚ) : ∃ n : ℤ, roundHalf q = (n : ℚ) / 2 :=
  ⟨jsRound (q * 2), rfl⟩

theorem pointsInv_roundHalf {q : ℚ} (h : 0 ≤ q) : PointsInv (roundHalf q) :=
  ⟨roundHalf_nonneg h, roundHalf_halfStep q⟩

theorem pointsInv_max_roundHalf (q : ℚ) : PointsInv (max 0 (roundHalf q)) := by
  constructor
  · exact le_max_left 0 _
  · rcases le_total 0 (roundHalf q) with h | h
    · rw [max_eq_right h]
      exact roundHalf_halfStep q
    · rw [max_eq_left h]
      exact ⟨0, by norm_num⟩

theorem todayMidnight_le (tz now : ℤ) : todayMidnight tz now ≤ now := by
  unfold todayMidnight MS_PER_DAY
  omega

theorem sub_todayMidnight_nonneg (tz now : ℤ) : 0 ≤ now - todayMidnight tz now := by
  unfold todayMidnight MS_PER_DAY
  omega

theorem sub_todayMidnight_lt (tz now : ℤ) : now - todayMidnight tz now < MS_PER_DAY := by
  unfold todayMidnight MS_PER_DAY
  omega

theorem fdiv_day_eq_zero {a : ℤ} (h0 : 0 ≤ a) (h1 : a < MS_PER_DAY) :
    a.fdiv MS_PER_DAY = 0 := by
  rw [Int.fdiv_eq_ediv _ (by norm_num [MS_PER_DAY])]
  exact Int.ediv_eq_zero_of_lt h0 h1

theorem mul_day_fdiv_cancel (d : ℤ) : (d * MS_PER_DAY).fdiv MS_PER_DAY = d := by
  rw [Int.fdiv_eq_ediv _ (by norm_num [MS_PER_DAY])]
  exact Int.mul_ediv_cancel d (by norm_num [MS_PER_DAY])

theorem fdiv_day_nonneg {a : ℤ} (h0 : 0 ≤ a) : 0 ≤ a.fdiv MS_PER_DAY := by
  rw [Int.fdiv_eq_ediv _ (by norm_num [MS_PER_DAY])]
  exact Int.ediv_nonneg h0 (by norm_num [MS_PER_DAY])

theorem fdiv_day_decompose (a : ℤ) :
    0 ≤ a - a.fdiv MS_PER_DAY * MS_PER_DAY ∧
      a - a.fdiv MS_PER_DAY * MS_PER_DAY < MS_PER_DAY := by
  rw [Int.fdiv_eq_ediv _ (by norm_num [MS_PER_DAY])]
  unfold MS_PER_DAY
  omega

/-! ### Structural lemmas about applyDailyCosts -/

theorem applyDailyCosts_lastCheckInAt (tz now : ℤ) (s : AccountState) :
    (applyDailyCosts tz now s).state.lastCheckInAt = s.lastCheckInAt := by
  unfold applyDailyCosts
  dsimp only
  split_ifs <;> rfl

theorem applyDailyCosts_handle (tz now : ℤ) (s : AccountState) :
    (applyDailyCosts tz now s).state.handle = s.handle := by
  unfold applyDailyCosts
  dsimp only
  split_ifs <;> rfl

theorem applyDailyCosts_noop (tz now : ℤ) (s : AccountState)
    (h1 : costBaseline tz now s ≤ todayMidnight tz now)
    (h2 : todayMidnight tz now - costBaseline tz now s < MS_PER_DAY)
    (h3 : purgeDue now s = false) :
    applyDailyCosts tz now s = { state := s, purged := false } := by
  unfold applyDailyCosts
  have hd : (todayMidnight tz now - costBaseline tz now s).fdiv MS_PER_DAY = 0 :=
    fdiv_day_eq_zero (by omega) h2
  simp [not_lt.mpr h1, hd, h3]

/-! ### Claim C7: deletion of used codes -/

/-- C7, counterexample.  The claim says a used code of either kind is
rejected on deletion and permanently retained.  The redeem-code delete route
has no used-check: deleting a used redeem code succeeds and removes the
record, audit fields included. -/
theorem c7_used_redeem_code_deleted :
    deleteRedeemCode
        (some { code := "CODE123", points := 5, used := true, usedBy := some "alice",
                createdAt := 0, usedAt := some 1 }) =
      (none, OpResult.ok ()) := rfl

/-- C7, amended.  Only invite codes enforce the delete-only-while-unused
rule: deleting a used invite code is rejected with its record retained
intact, an unused invite code is removed, while a redeem code is removed
whether used or not; deleting a missing code of either kind is a not-found
error. -/
theorem c7_delete_semantics (ri : InviteCodeRec) (rr : RedeemCodeRec) :
    (ri.used = true → deleteInviteCode (some ri) = (some ri, OpResult.err ApiError.codeUsed)) ∧
    (ri.used = false → deleteInviteCode (some ri) = (none, OpResult.ok ())) ∧
    deleteRedeemCode (some rr) = (none, OpResult.ok ()) ∧
    deleteRedeemCode none = (none, OpResult.err ApiError.codeNotFound) ∧
    deleteInviteCode none = (none, OpResult.err ApiError.codeNotFound) := by
  refine ⟨fun h => ?_, fun h => ?_, rfl, rfl, rfl⟩ <;> simp [deleteInviteCode, h]

/-- C7, witness for the amended theorem at a concrete used invite code and a
concrete redeem code. -/
theorem c7_delete_semantics_witness :
    deleteInviteCode
        (some { code := "INV1", used := true, usedBy := some "bob", createdAt := 0,
                usedAt := some 2, expiresAt := none }) =
      (some { code := "INV1", used := true, usedBy := some "bob", createdAt := 0,
              usedAt := some 2, expiresAt := none },
        OpResult.err ApiError.codeUsed) :=
  (c7_delete_semantics
    { code := "INV1", used := true, usedBy := some "bob", createdAt := 0,
      usedAt := some 2, expiresAt := none }
    { code := "R", points := 1, used := false, usedBy := none, createdAt := 0,
      usedAt := none }).1 rfl

/-! ### Claim C8: collision retry in code generation -/

/-- Invariant of the collision-retry loop: starting with the attempt counter
and fuel summing to one more than the bound, the loop ends with the counter
at most the bound, and either the counter hit the bound or the final
candidate is collision free. -/
theorem genLoopGo_spec (hit : String → Bool) (cand : ℕ → String) (limit : ℕ) :
    ∀ fuel code attempts, attempts + fuel = limit + 1 → attempts ≤ limit →
      (genLoopGo hit cand limit code attempts fuel).2 ≤ limit ∧
      ((genLoopGo hit cand limit code attempts fuel).2 = limit ∨
        hit (genLoopGo hit cand limit code attempts fuel).1 = false) := by
  intro fuel
  induction fuel with
  | zero => intro code attempts h1 h2; omega
  | succ f ih =>
    intro code attempts h1 h2
    by_cases hc : hit code = true ∧ attempts < limit
    · simpa [genLoopGo, hc] using ih (cand (attempts + 1)) (attempts + 1) (by omega) (by omega)
    · have hret : genLoopGo hit cand limit code attempts (f + 1) = (code, attempts) := by
        simp only [genLoopGo, if_neg hc]
      rw [hret]
      rcases Decidable.not_and_iff_or_not.mp hc with h | h
      · exact ⟨h2, Or.inr (by simpa using h)⟩
      · exact ⟨h2, Or.inl (by omega)⟩

/-- C8, counterexample.  With every candidate colliding, redeem-code
creation exhausts its 10-attempt budget and then stores the colliding
candidate anyway, surfacing no failure (the claim says exhaustion must
surface a failure for both kinds). -/
theorem c8_redeem_creation_stores_collision :
    (genLoop (fun _ => true) (fun _ => "A") 10).2 = 10 ∧
    createOneRedeemCode (fun _ => true) (fun _ => "A") = GenOutcome.stored "A" :=
  ⟨rfl, rfl⟩

/-- C8, amended.  Both creation routes retry on collision with a bounded
attempt counter (10 for redeem codes, 50 for invite codes); invite creation
surfaces a failure when the budget is exhausted and otherwise stores a
collision-free candidate, while redeem creation always stores the final
candidate, colliding or not, surfacing no failure. -/
theorem c8_generation_retry_semantics (hit : String → Bool) (cand : ℕ → String) :
    (genLoop hit cand 10).2 ≤ 10 ∧
    createOneRedeemCode hit cand = GenOutcome.stored (genLoop hit cand 10).1 ∧
    (genLoop hit cand 50).2 ≤ 50 ∧
    (createOneInviteCode hit cand = GenOutcome.failed ∨
      (hit (genLoop hit cand 50).1 = false ∧
        createOneInviteCode hit cand = GenOutcome.stored (genLoop hit cand 50).1)) := by
  have h10 : (genLoop hit cand 10).2 ≤ 10 ∧
      ((genLoop hit cand 10).2 = 10 ∨ hit (genLoop hit cand 10).1 = false) :=
    genLoopGo_spec hit cand 10 11 (cand 0) 0 (by omega) (by omega)
  have h50 : (genLoop hit cand 50).2 ≤ 50 ∧
      ((genLoop hit cand 50).2 = 50 ∨ hit (genLoop hit cand 50).1 = false) :=
    genLoopGo_spec hit cand 50 51 (cand 0) 0 (by omega) (by omega)
  refine ⟨h10.1, rfl, h50.1, ?_⟩
  by_cases he : (genLoop hit cand 50).2 = 50
  · exact Or.inl (by simp [createOneInviteCode, he])
  · rcases h50.2 with h | h
    · exact absurd h he
    · refine Or.inr ⟨h, ?_⟩
      have hlt : ¬ (50 ≤ (genLoop hit cand 50).2) := by
        have h1 := h50.1
        omega
      simp [createOneInviteCode, hlt]

/-! ### Branch characterizations of applyDailyCosts -/

theorem costBaseline_of_pos (tz now : ℤ) (s : AccountState) (h : 0 < s.lastCostAppliedAt) :
    costBaseline tz now s = s.lastCostAppliedAt := by
  unfold costBaseline
  simp [show s.lastCostAppliedAt ≠ 0 by omega]

theorem purgeDue_update (now : ℤ) (s : AccountState) (p : ℚ) (l : ℤ) :
    purgeDue now { s with points := p, lastCostAppliedAt := l } = purgeDue now s := rfl

theorem applyDailyCosts_days_pos (tz now : ℤ) (s : AccountState)
    (hle : costBaseline tz now s ≤ todayMidnight tz now)
    (hpos : 0 < (todayMidnight tz now - costBaseline tz now s).fdiv MS_PER_DAY)
    (hpurge : purgeDue now s = false) :
    applyDailyCosts tz now s =
      { state :=
          { s with
              points := max 0 (roundHalf (s.points -
                (((todayMidnight tz now - costBaseline tz now s).fdiv MS_PER_DAY : ℤ) : ℚ) *
                  (if s.accessOn then 1 else 0)))
              lastCostAppliedAt := costBaseline tz now s +
                (todayMidnight tz now - costBaseline tz now s).fdiv MS_PER_DAY * MS_PER_DAY }
        purged := false } := by
  unfold applyDailyCosts
  simp only [not_lt.mpr hle, if_neg, if_false, gt_iff_lt, if_pos hpos, purgeDue_update, hpurge]
  simp [not_lt.mpr hle, hpos, purgeDue_update, hpurge]

theorem applyDailyCosts_purge_eq (tz now : ℤ) (s : AccountState)
    (hle : costBaseline tz now s ≤ todayMidnight tz now)
    (hpurge : purgeDue now s = true) :
    applyDailyCosts tz now s =
      { state :=
          { s with
              points := 0
              accessOn := false
              lastCheckInDate := ""
              accessOffSince := some (todayMidnight tz now)
              lastCostAppliedAt := todayMidnight tz now }
        purged := true } := by
  unfold applyDailyCosts
  by_cases hpos : 0 < (todayMidnight tz now - costBaseline tz now s).fdiv MS_PER_DAY
  · simp [not_lt.mpr hle, hpos, purgeDue_update, hpurge]
  · simp [not_lt.mpr hle, hpos, hpurge]

/-! ### Claim C2: exact daily cost deduction -/

/-- C2.  When a whole number of days separates lastCostAppliedAt from the
current day boundary, applyDailyCosts deducts zero points with access off
and exactly that many points with access on, clamped at zero (the rounding
is absorbed because the balance is a half multiple and the cost an
integer), and advances lastCostAppliedAt by exactly that many whole days.
Stated for a positive stored baseline (so the JavaScript falsy fallback is
idle), a half-multiple nonnegative balance, and outside the purge window,
which claim C1 covers separately. -/
theorem c2_daily_cost_deduction (tz now days : ℤ) (s : AccountState)
    (hlast : 0 < s.lastCostAppliedAt)
    (hdays : todayMidnight tz now - s.lastCostAppliedAt = days * MS_PER_DAY)
    (hd0 : 0 ≤ days)
    (hinv : PointsInv s.points)
    (hpurge : purgeDue now s = false) :
    (applyDailyCosts tz now s).state.points =
      (if s.accessOn then max 0 (s.points - (days : ℚ)) else s.points) ∧
    (applyDailyCosts tz now s).state.lastCostAppliedAt =
      s.lastCostAppliedAt + days * MS_PER_DAY ∧
    (applyDailyCosts tz now s).purged = false := by
  have hbase := costBaseline_of_pos tz now s hlast
  have hDpos : (0 : ℤ) < MS_PER_DAY := by norm_num [MS_PER_DAY]
  have hmul : 0 ≤ days * MS_PER_DAY := mul_nonneg hd0 (le_of_lt hDpos)
  have hle : costBaseline tz now s ≤ todayMidnight tz now := by linarith
  have hfdiv : (todayMidnight tz now - costBaseline tz now s).fdiv MS_PER_DAY = days := by
    rw [hbase, hdays]
    exact mul_day_fdiv_cancel days
  obtain ⟨n, hn⟩ := hinv.2
  rcases eq_or_lt_of_le hd0 with h0 | h0
  · have hdz : days * MS_PER_DAY = 0 := by
      rw [← h0]
      ring
    have hd2 : todayMidnight tz now - s.lastCostAppliedAt = 0 := by rw [hdays, hdz]
    have hzero : todayMidnight tz now - costBaseline tz now s = 0 := by
      rw [hbase]
      exact hd2
    have hnoop := applyDailyCosts_noop tz now s hle (by rw [hzero]; exact hDpos) hpurge
    rw [hnoop]
    subst h0
    refine ⟨?_, by simp, rfl⟩
    by_cases hon : s.accessOn = true <;> simp [hon, max_eq_right hinv.1]
  · have heq := applyDailyCosts_days_pos tz now s hle (by rw [hfdiv]; exact h0) hpurge
    rw [hfdiv, hbase] at heq
    rw [heq]
    dsimp only
    refine ⟨?_, rfl, rfl⟩
    by_cases hon : s.accessOn = true
    · simp only [hon, if_true]
      have hhalf : s.points - (days : ℚ) * 1 = ((n - 2 * days : ℤ) : ℚ) / 2 := by
        rw [hn]
        push_cast
        ring
      rw [hhalf, roundHalf_eq_self ⟨n - 2 * days, rfl⟩, ← hhalf, mul_one]
    · have hoff : s.accessOn = false := by simpa using hon
      simp only [hoff, Bool.false_eq_true, if_false, mul_zero, sub_zero]
      rw [roundHalf_eq_self hinv.2, max_eq_right hinv.1]

/-- C2, witness: two elapsed whole days with access on deduct exactly two
points from a balance of twenty and advance the baseline by two days. -/
theorem c2_daily_cost_deduction_witness :
    (applyDailyCosts 0 (3 * MS_PER_DAY + 5000)
        { handle := "u", points := 20, accessOn := true, lastCostAppliedAt := MS_PER_DAY,
          lastCheckInDate := "", lastCheckInAt := none, accessOffSince := none,
          createdAt := 1 }).state.points = 18 ∧
    (applyDailyCosts 0 (3 * MS_PER_DAY + 5000)
        { handle := "u", points := 20, accessOn := true, lastCostAppliedAt := MS_PER_DAY,
          lastCheckInDate := "", lastCheckInAt := none, accessOffSince := none,
          createdAt := 1 }).state.lastCostAppliedAt = 3 * MS_PER_DAY := by
  have h := c2_daily_cost_deduction 0 (3 * MS_PER_DAY + 5000) 2
    { handle := "u", points := 20, accessOn := true, lastCostAppliedAt := MS_PER_DAY,
      lastCheckInDate := "", lastCheckInAt := none, accessOffSince := none, createdAt := 1 }
    (by norm_num [MS_PER_DAY])
    (by unfold todayMidnight MS_PER_DAY; decide)
    (by norm_num)
    ⟨by norm_num, 40, by norm_num⟩
    (by rfl)
  refine ⟨?_, ?_⟩
  · rw [h.1]
    norm_num
  · rw [h.2.1]
    norm_num [MS_PER_DAY]

/-! ### Claim C1: the 30-day purge -/

/-- C1, counterexample.  The claim says the purge reset clears the check-in
timestamp.  The reset clears only the legacy date string; lastCheckInAt
survives the purge: here a ledger purged after 31 days off keeps its stored
check-in instant. -/
theorem c1_checkin_timestamp_not_cleared :
    (applyDailyCostsStore 0 (32 * MS_PER_DAY)
        { handle := "u", points := 3, accessOn := false,
          lastCostAppliedAt := MS_PER_DAY, lastCheckInDate := "",
          lastCheckInAt := some 500, accessOffSince := some MS_PER_DAY,
          createdAt := 1 } true).purged = true ∧
    (applyDailyCostsStore 0 (32 * MS_PER_DAY)
        { handle := "u", points := 3, accessOn := false,
          lastCostAppliedAt := MS_PER_DAY, lastCheckInDate := "",
          lastCheckInAt := some 500, accessOffSince := some MS_PER_DAY,
          createdAt := 1 } true).state.lastCheckInAt = some 500 := by
  constructor <;>
    simp +decide [applyDailyCostsStore, applyDailyCosts, costBaseline, purgeDue,
      todayMidnight, MS_PER_DAY]

/-- C1, amended.  A ledger thirty or more days into the off state, found by
any operation that applies daily costs, fires the purge: the identity record
is removed, the ledger is persisted with zero points, access off,
accessOffSince and lastCostAppliedAt restamped to the current day boundary,
and the legacy check-in date string cleared, while lastCheckInAt is
retained; rerunning cost application on the result, and in particular an
immediately subsequent status check, neither re-fires the purge nor mutates
the ledger again, and the status route reports the purge exactly once. -/
theorem c1_purge_after_thirty_days_off (tz now off : ℤ) (s : AccountState) (userPresent : Bool)
    (hoff : s.accessOn = false)
    (hsome : s.accessOffSince = some off)
    (hoffnz : off ≠ 0)
    (h30 : 30 * MS_PER_DAY ≤ now - off)
    (hle : costBaseline tz now s ≤ todayMidnight tz now)
    (hmid : 0 < todayMidnight tz now) :
    (applyDailyCostsStore tz now s userPresent).purged = true ∧
    (applyDailyCostsStore tz now s userPresent).userPresent = false ∧
    (applyDailyCostsStore tz now s userPresent).state =
      { s with
        points := 0
        accessOn := false
        lastCheckInDate := ""
        accessOffSince := some (todayMidnight tz now)
        lastCostAppliedAt := todayMidnight tz now } ∧
    applyDailyCostsStore tz now ((applyDailyCostsStore tz now s userPresent).state) false =
      { state := (applyDailyCostsStore tz now s userPresent).state,
        userPresent := false, purged := false } ∧
    (buildStatus tz now s.handle (some s) userPresent).payload.purged = true ∧
    (buildStatus tz now s.handle (some s) userPresent).state =
      (applyDailyCostsStore tz now s userPresent).state ∧
    (buildStatus tz now s.handle (some s) userPresent).userPresent = false ∧
    (buildStatus tz now s.handle
        (some (applyDailyCostsStore tz now s userPresent).state) false).payload.purged = false ∧
    (buildStatus tz now s.handle
        (some (applyDailyCostsStore tz now s userPresent).state) false).state =
      (applyDailyCostsStore tz now s userPresent).state := by
  have hpurge : purgeDue now s = true := by
    simp [purgeDue, hoff, hsome, hoffnz, h30]
  have hcore := applyDailyCosts_purge_eq tz now s hle hpurge
  have hstore : applyDailyCostsStore tz now s userPresent =
      { state := { s with
          points := 0
          accessOn := false
          lastCheckInDate := ""
          accessOffSince := some (todayMidnight tz now)
          lastCostAppliedAt := todayMidnight tz now },
        userPresent := false, purged := true } := by
    unfold applyDailyCostsStore
    rw [hcore]
    rfl
  have hTbase : costBaseline tz now
      { s with
        points := 0
        accessOn := false
        lastCheckInDate := ""
        accessOffSince := some (todayMidnight tz now)
        lastCostAppliedAt := todayMidnight tz now } = todayMidnight tz now :=
    costBaseline_of_pos tz now _ hmid
  have hnotdue : ¬ (30 * MS_PER_DAY ≤ now - todayMidnight tz now) := by
    have h1 := sub_todayMidnight_lt tz now
    have h2 := sub_todayMidnight_nonneg tz now
    unfold MS_PER_DAY at h1 ⊢
    omega
  have hTpurge : purgeDue now
      { s with
        points := 0
        accessOn := false
        lastCheckInDate := ""
        accessOffSince := some (todayMidnight tz now)
        lastCostAppliedAt := todayMidnight tz now } = false := by
    simp [purgeDue, hnotdue]
  have hnoop := applyDailyCosts_noop tz now
    { s with
      points := 0
      accessOn := false
      lastCheckInDate := ""
      accessOffSince := some (todayMidnight tz now)
      lastCostAppliedAt := todayMidnight tz now }
    (le_of_eq hTbase) (by rw [hTbase]; norm_num [MS_PER_DAY]) hTpurge
  have hstore2 : applyDailyCostsStore tz now
      { s with
        points := 0
        accessOn := false
        lastCheckInDate := ""
        accessOffSince := some (todayMidnight tz now)
        lastCostAppliedAt := todayMidnight tz now } false =
      { state := { s with
          points := 0
          accessOn := false
          lastCheckInDate := ""
          accessOffSince := some (todayMidnight tz now)
          lastCostAppliedAt := todayMidnight tz now },
        userPresent := false, purged := false } := by
    unfold applyDailyCostsStore
    rw [hnoop]
    rfl
  refine ⟨by rw [hstore], by rw [hstore], by rw [hstore], by rw [hstore]; exact hstore2,
    ?_, ?_, ?_, ?_, ?_⟩
  · unfold buildStatus
    simp only [getOrInitState, hstore, hsome]
    simp [hoffnz, h30]
  · unfold buildStatus
    simp only [getOrInitState, hstore]
  · unfold buildStatus
    simp only [getOrInitState, hstore]
  · unfold buildStatus
    simp only [getOrInitState, hstore, hstore2]
    simp [hnotdue]
  · unfold buildStatus
    simp only [getOrInitState, hstore, hstore2]

/-- C1, witness for the amended theorem: a ledger 31 days into the off
state is purged by the next cost application, with the identity record
removed. -/
theorem c1_purge_after_thirty_days_off_witness :
    (applyDailyCostsStore 0 (32 * MS_PER_DAY)
        { handle := "u", points := 3, accessOn := false,
          lastCostAppliedAt := MS_PER_DAY, lastCheckInDate := "",
          lastCheckInAt := none, accessOffSince := some MS_PER_DAY,
          createdAt := 1 } true).purged = true ∧
    (applyDailyCostsStore 0 (32 * MS_PER_DAY)
        { handle := "u", points := 3, accessOn := false,
          lastCostAppliedAt := MS_PER_DAY, lastCheckInDate := "",
          lastCheckInAt := none, accessOffSince := some MS_PER_DAY,
          createdAt := 1 } true).userPresent = false := by
  have h := c1_purge_after_thirty_days_off 0 (32 * MS_PER_DAY) MS_PER_DAY
    { handle := "u", points := 3, accessOn := false,
      lastCostAppliedAt := MS_PER_DAY, lastCheckInDate := "",
      lastCheckInAt := none, accessOffSince := some MS_PER_DAY, createdAt := 1 }
    true rfl rfl (by decide) (by decide) (by decide) (by decide)
  exact ⟨h.1, h.2.1⟩

/-! ### Claim C4: toggling access on with half a point -/

/-- C4, counterexample.  The claim says toggling access on with half a
point succeeds leaving zero points.  Turning on requires a full point: the
call is rejected with the insufficient-balance error and the ledger is left
unchanged. -/
theorem c4_toggle_half_point_rejected :
    toggleAccess 0 MS_PER_DAY "u" true
        (some { handle := "u", points := 1/2, accessOn := false,
                lastCostAppliedAt := MS_PER_DAY, lastCheckInDate := "",
                lastCheckInAt := none, accessOffSince := none, createdAt := 1 }) =
      { state := { handle := "u", points := 1/2, accessOn := false,
                   lastCostAppliedAt := MS_PER_DAY, lastCheckInDate := "",
                   lastCheckInAt := none, accessOffSince := none, createdAt := 1 },
        result := OpResult.err ApiError.insufficientPoints } := by
  simp +decide [toggleAccess, getOrInitState, applyDailyCosts, costBaseline, purgeDue,
    todayMidnight, MS_PER_DAY]
  norm_num

/-- C4, amended.  Toggling access on from the off state with fewer points
than the one-point activation fee, half a point and zero alike, fails with
the insufficient-balance error and leaves the ledger unchanged (stated with
no day boundary elapsed and outside the purge window, so that cost
application itself is a no-op). -/
theorem c4_toggle_insufficient_balance (tz now : ℤ) (s : AccountState)
    (hoff : s.accessOn = false)
    (hlt : s.points < 1)
    (hle : costBaseline tz now s ≤ todayMidnight tz now)
    (hsameday : todayMidnight tz now - costBaseline tz now s < MS_PER_DAY)
    (hpurge : purgeDue now s = false) :
    toggleAccess tz now s.handle true (some s) =
      { state := s, result := OpResult.err ApiError.insufficientPoints } := by
  have hnoop := applyDailyCosts_noop tz now s hle hsameday hpurge
  unfold toggleAccess
  simp only [getOrInitState, hnoop]
  simp [hoff, hlt]

/-- C4, witness for the amended theorem at a zero-point ledger. -/
theorem c4_toggle_insufficient_balance_witness :
    toggleAccess 0 MS_PER_DAY "u" true
        (some { handle := "u", points := 0, accessOn := false,
                lastCostAppliedAt := MS_PER_DAY, lastCheckInDate := "",
                lastCheckInAt := none, accessOffSince := none, createdAt := 1 }) =
      { state := { handle := "u", points := 0, accessOn := false,
                   lastCostAppliedAt := MS_PER_DAY, lastCheckInDate := "",
                   lastCheckInAt := none, accessOffSince := none, createdAt := 1 },
        result := OpResult.err ApiError.insufficientPoints } :=
  c4_toggle_insufficient_balance 0 MS_PER_DAY
    { handle := "u", points := 0, accessOn := false,
      lastCostAppliedAt := MS_PER_DAY, lastCheckInDate := "",
      lastCheckInAt := none, accessOffSince := none, createdAt := 1 }
    rfl (by norm_num) (by decide) (by decide) rfl

/-! ### Claim C5: the rolling 24-hour check-in cooldown -/

/-- C5.  An eligible check-in (no effective prior check-in, or at least 24
hours since it) succeeds, credits exactly five points rounded to the half,
records lastCheckInAt = now and answers nextCheckInAt = now + 24h; a second
check-in strictly less than 24 hours later is rejected with a cooldown
error whose nextCheckInAt is that same instant, the previous check-in plus
24 hours — a rolling window anchored to the stored instant, not a
calendar-day reset. -/
theorem effectiveLastCheckIn_applyDailyCosts_of_some (tz now t : ℤ) (s : AccountState)
    (h : s.lastCheckInAt = some t) :
    effectiveLastCheckIn ((applyDailyCosts tz now s).state) = some t := by
  unfold effectiveLastCheckIn
  rw [applyDailyCosts_lastCheckInAt, h]

theorem c5_checkin_cooldown (tz now1 now2 : ℤ) (handle : String) (s0 : Option AccountState)
    (helig : ∀ t, effectiveLastCheckIn
        ((applyDailyCosts tz now1 (getOrInitState tz now1 handle s0)).state) = some t →
        COOLDOWN_MS ≤ now1 - t)
    (hlt : now2 - now1 < COOLDOWN_MS) :
    (checkin tz now1 handle s0).result =
      OpResult.ok
        { points := roundHalf
            ((applyDailyCosts tz now1 (getOrInitState tz now1 handle s0)).state.points + 5)
          lastCheckInAt := now1
          nextCheckInAt := now1 + COOLDOWN_MS } ∧
    (checkin tz now1 handle s0).state.lastCheckInAt = some now1 ∧
    (checkin tz now1 handle s0).state.points =
      roundHalf
        ((applyDailyCosts tz now1 (getOrInitState tz now1 handle s0)).state.points + 5) ∧
    (checkin tz now2 handle (some (checkin tz now1 handle s0).state)).result =
      OpResult.err (ApiError.cooldown (now1 + COOLDOWN_MS)) := by
  have hfirst : checkin tz now1 handle s0 =
      checkinCredit tz now1 ((applyDailyCosts tz now1 (getOrInitState tz now1 handle s0)).state) := by
    simp only [checkin]
    cases h : effectiveLastCheckIn
        ((applyDailyCosts tz now1 (getOrInitState tz now1 handle s0)).state) with
    | none => rfl
    | some t =>
      dsimp only
      rw [if_neg (not_lt.mpr (helig t h))]
  rw [hfirst]
  refine ⟨rfl, rfl, rfl, ?_⟩
  simp only [checkin]
  rw [effectiveLastCheckIn_applyDailyCosts_of_some tz now2 now1
    (getOrInitState tz now2 handle
      (some (checkinCredit tz now1
        ((applyDailyCosts tz now1 (getOrInitState tz now1 handle s0)).state)).state)) rfl]
  dsimp only
  rw [if_pos hlt]

/-- C5, witness: a fresh ledger checks in successfully and a retry 500
milliseconds later is rejected with the same next-eligible instant. -/
theorem c5_checkin_cooldown_witness :
    (checkin 0 (MS_PER_DAY + 100) "u"
        (some { handle := "u", points := 20, accessOn := true,
                lastCostAppliedAt := MS_PER_DAY, lastCheckInDate := "",
                lastCheckInAt := none, accessOffSince := none,
                createdAt := 1 })).state.lastCheckInAt = some (MS_PER_DAY + 100) ∧
    (checkin 0 (MS_PER_DAY + 600) "u"
        (some (checkin 0 (MS_PER_DAY + 100) "u"
          (some { handle := "u", points := 20, accessOn := true,
                  lastCostAppliedAt := MS_PER_DAY, lastCheckInDate := "",
                  lastCheckInAt := none, accessOffSince := none,
                  createdAt := 1 })).state)).result =
      OpResult.err (ApiError.cooldown (MS_PER_DAY + 100 + COOLDOWN_MS)) := by
  have h := c5_checkin_cooldown 0 (MS_PER_DAY + 100) (MS_PER_DAY + 600) "u"
    (some { handle := "u", points := 20, accessOn := true,
            lastCostAppliedAt := MS_PER_DAY, lastCheckInDate := "",
            lastCheckInAt := none, accessOffSince := none, createdAt := 1 })
    (by
      intro t ht
      simp +decide [effectiveLastCheckIn, applyDailyCosts, getOrInitState, costBaseline,
        purgeDue, todayMidnight, MS_PER_DAY] at ht)
    (by decide)
  exact ⟨h.2.1, h.2.2.2⟩

/-! ### Claim C6: redeeming a code credits exactly once -/

/-- C6.  Redeeming a missing code is a not-found error and mutates nothing;
redeeming a used code is an already-used error and mutates nothing; a
successful redemption marks the code used with usedBy and usedAt, credits
the code points to the ledger once (rounded to the half, after cost
application), and any second attempt on the resulting store is rejected as
already used with both the code record and the ledger left exactly as the
first attempt left them — the ledger is credited exactly once across the
two attempts. -/
theorem c6_redeem_exactly_once (tz now now2 : ℤ) (handle code : String)
    (rec : RedeemCodeRec) (s0 : Option AccountState)
    (hc : code ≠ "") :
    redeem tz now handle code none s0 =
      { codeRec := none, account := s0, result := OpResult.err ApiError.codeNotFound } ∧
    (rec.used = true →
      redeem tz now handle code (some rec) s0 =
        { codeRec := some rec, account := s0, result := OpResult.err ApiError.codeUsed }) ∧
    (rec.used = false →
      redeem tz now handle code (some rec) s0 =
        { codeRec := some { rec with used := true, usedBy := some handle, usedAt := some now }
          account := some
            { (applyDailyCosts tz now (getOrInitState tz now handle s0)).state with
                points := roundHalf
                  ((applyDailyCosts tz now (getOrInitState tz now handle s0)).state.points +
                    rec.points) }
          result := OpResult.ok
            { points := roundHalf
                ((applyDailyCosts tz now (getOrInitState tz now handle s0)).state.points +
                  rec.points)
              addedPoints := rec.points } } ∧
      redeem tz now2 handle code
          (redeem tz now handle code (some rec) s0).codeRec
          (redeem tz now handle code (some rec) s0).account =
        { codeRec := (redeem tz now handle code (some rec) s0).codeRec
          account := (redeem tz now handle code (some rec) s0).account
          result := OpResult.err ApiError.codeUsed }) := by
  refine ⟨by simp [redeem, hc], fun h => by simp [redeem, hc, h], fun h => ?_⟩
  have hfst : redeem tz now handle code (some rec) s0 =
      { codeRec := some { rec with used := true, usedBy := some handle, usedAt := some now }
        account := some
          { (applyDailyCosts tz now (getOrInitState tz now handle s0)).state with
              points := roundHalf
                ((applyDailyCosts tz now (getOrInitState tz now handle s0)).state.points +
                  rec.points) }
        result := OpResult.ok
          { points := roundHalf
              ((applyDailyCosts tz now (getOrInitState tz now handle s0)).state.points +
                rec.points)
            addedPoints := rec.points } } := by
    simp [redeem, hc, h]
  refine ⟨hfst, ?_⟩
  rw [hfst]
  simp [redeem, hc]

/-- C6, witness: a ten-point code is credited once and the second attempt
is rejected as already used. -/
theorem c6_redeem_exactly_once_witness :
    redeem 0 (MS_PER_DAY + 100) "u" "CODE" none
        (some { handle := "u", points := 20, accessOn := true,
                lastCostAppliedAt := MS_PER_DAY, lastCheckInDate := "",
                lastCheckInAt := none, accessOffSince := none, createdAt := 1 }) =
      { codeRec := none
        account := some { handle := "u", points := 20, accessOn := true,
                          lastCostAppliedAt := MS_PER_DAY, lastCheckInDate := "",
                          lastCheckInAt := none, accessOffSince := none, createdAt := 1 }
        result := OpResult.err ApiError.codeNotFound } ∧
    redeem 0 (MS_PER_DAY + 100) "u" "CODE"
        (some { code := "CODE", points := 10, used := true, usedBy := some "w",
                createdAt := 0, usedAt := some 5 })
        (some { handle := "u", points := 20, accessOn := true,
                lastCostAppliedAt := MS_PER_DAY, lastCheckInDate := "",
                lastCheckInAt := none, accessOffSince := none, createdAt := 1 }) =
      { codeRec := some { code := "CODE", points := 10, used := true, usedBy := some "w",
                          createdAt := 0, usedAt := some 5 }
        account := some { handle := "u", points := 20, accessOn := true,
                          lastCostAppliedAt := MS_PER_DAY, lastCheckInDate := "",
                          lastCheckInAt := none, accessOffSince := none, createdAt := 1 }
        result := OpResult.err ApiError.codeUsed } := by
  have h := c6_redeem_exactly_once 0 (MS_PER_DAY + 100) (MS_PER_DAY + 200) "u" "CODE"
    { code := "CODE", points := 10, used := true, usedBy := some "w",
      createdAt := 0, usedAt := some 5 }
    (some { handle := "u", points := 20, accessOn := true,
            lastCostAppliedAt := MS_PER_DAY, lastCheckInDate := "",
            lastCheckInAt := none, accessOffSince := none, createdAt := 1 })
    (by decide)
  exact ⟨h.1, h.2.1 rfl⟩

/-! ### Claim C3: idempotence of cost application -/

/-- Reapplying costs to a freshly purge-reset ledger at the same instant is
a no-op. -/
theorem applyDailyCosts_reset_noop (tz now : ℤ) (s : AccountState)
    (hmid : 0 < todayMidnight tz now) :
    applyDailyCosts tz now
        { s with
          points := 0
          accessOn := false
          lastCheckInDate := ""
          accessOffSince := some (todayMidnight tz now)
          lastCostAppliedAt := todayMidnight tz now } =
      { state :=
          { s with
            points := 0
            accessOn := false
            lastCheckInDate := ""
            accessOffSince := some (todayMidnight tz now)
            lastCostAppliedAt := todayMidnight tz now }
        purged := false } := by
  have hTbase : costBaseline tz now
      { s with
        points := 0
        accessOn := false
        lastCheckInDate := ""
        accessOffSince := some (todayMidnight tz now)
        lastCostAppliedAt := todayMidnight tz now } = todayMidnight tz now :=
    costBaseline_of_pos tz now _ hmid
  have hnotdue : ¬ (30 * MS_PER_DAY ≤ now - todayMidnight tz now) := by
    have h1 := sub_todayMidnight_lt tz now
    have h2 := sub_todayMidnight_nonneg tz now
    unfold MS_PER_DAY at h1 ⊢
    omega
  have hTpurge : purgeDue now
      { s with
        points := 0
        accessOn := false
        lastCheckInDate := ""
        accessOffSince := some (todayMidnight tz now)
        lastCostAppliedAt := todayMidnight tz now } = false := by
    simp [purgeDue, hnotdue]
  exact applyDailyCosts_noop tz now _ (le_of_eq hTbase)
    (by rw [hTbase]; norm_num [MS_PER_DAY]) hTpurge

/-- C3, counterexample.  The claim quantifies over every ledger.  On a
ledger whose lastCostAppliedAt lies in the future (beyond the current day
boundary) while the 30-day purge condition already holds, the first call
takes the defensive clamp branch and returns before the purge check, while
the second call, at the very same instant, fires the purge: the ledger
after the second call differs from the ledger after the first. -/
theorem c3_idempotence_fails_future_baseline :
    (applyDailyCosts 0 (40 * MS_PER_DAY + 1000)
        ((applyDailyCosts 0 (40 * MS_PER_DAY + 1000)
          { handle := "u", points := 5, accessOn := false,
            lastCostAppliedAt := 41 * MS_PER_DAY, lastCheckInDate := "",
            lastCheckInAt := none, accessOffSince := some (9 * MS_PER_DAY),
            createdAt := 1 }).state)).state ≠
      (applyDailyCosts 0 (40 * MS_PER_DAY + 1000)
        { handle := "u", points := 5, accessOn := false,
          lastCostAppliedAt := 41 * MS_PER_DAY, lastCheckInDate := "",
          lastCheckInAt := none, accessOffSince := some (9 * MS_PER_DAY),
          createdAt := 1 }).state := by
  decide

/-- C3, amended.  On every ledger whose effective cost baseline is positive
and does not lie beyond the current (positive) day boundary, cost
application is idempotent: a second call at the same instant returns the
ledger unchanged without purging, and any number of further calls leave it
fixed. -/
theorem c3_costs_idempotent (tz now : ℤ) (s : AccountState)
    (hbpos : 0 < costBaseline tz now s)
    (hble : costBaseline tz now s ≤ todayMidnight tz now)
    (hmid : 0 < todayMidnight tz now) :
    applyDailyCosts tz now ((applyDailyCosts tz now s).state) =
      { state := (applyDailyCosts tz now s).state, purged := false } ∧
    ∀ n : ℕ, (fun st => (applyDailyCosts tz now st).state)^[n]
        ((applyDailyCosts tz now s).state) = (applyDailyCosts tz now s).state := by
  have hDpos : (0 : ℤ) < MS_PER_DAY := by norm_num [MS_PER_DAY]
  have hd0 : 0 ≤ (todayMidnight tz now - costBaseline tz now s).fdiv MS_PER_DAY :=
    fdiv_day_nonneg (by omega)
  have hdec := fdiv_day_decompose (todayMidnight tz now - costBaseline tz now s)
  have key : applyDailyCosts tz now ((applyDailyCosts tz now s).state) =
      { state := (applyDailyCosts tz now s).state, purged := false } := by
    by_cases hpu : purgeDue now s = true
    · rw [applyDailyCosts_purge_eq tz now s hble hpu]
      exact applyDailyCosts_reset_noop tz now s hmid
    · have hpu2 : purgeDue now s = false := by
        cases h : purgeDue now s
        · rfl
        · exact absurd h hpu
      by_cases hpd : 0 < (todayMidnight tz now - costBaseline tz now s).fdiv MS_PER_DAY
      · rw [applyDailyCosts_days_pos tz now s hble hpd hpu2]
        have hmul : 0 ≤ (todayMidnight tz now - costBaseline tz now s).fdiv MS_PER_DAY *
            MS_PER_DAY := mul_nonneg hd0 (le_of_lt hDpos)
        have hbase2 : costBaseline tz now
            { s with
                points := max 0 (roundHalf (s.points -
                  (((todayMidnight tz now - costBaseline tz now s).fdiv MS_PER_DAY : ℤ) : ℚ) *
                    (if s.accessOn then 1 else 0)))
                lastCostAppliedAt := costBaseline tz now s +
                  (todayMidnight tz now - costBaseline tz now s).fdiv MS_PER_DAY * MS_PER_DAY } =
            costBaseline tz now s +
              (todayMidnight tz now - costBaseline tz now s).fdiv MS_PER_DAY * MS_PER_DAY :=
          costBaseline_of_pos tz now _
            (by
              show (0 : ℤ) < costBaseline tz now s +
                (todayMidnight tz now - costBaseline tz now s).fdiv MS_PER_DAY * MS_PER_DAY
              linarith)
        refine applyDailyCosts_noop tz now _ (by rw [hbase2]; linarith [hdec.1]) ?_ ?_
        · rw [hbase2]
          linarith [hdec.2]
        · rw [purgeDue_update]
          exact hpu2
      · have hz : (todayMidnight tz now - costBaseline tz now s).fdiv MS_PER_DAY = 0 := by
          omega
        have hlt : todayMidnight tz now - costBaseline tz now s < MS_PER_DAY := by
          have h1 := hdec.1
          have h2 := hdec.2
          rw [hz] at h2
          linarith
        rw [applyDailyCosts_noop tz now s hble hlt hpu2]
        exact applyDailyCosts_noop tz now s hble hlt hpu2
  refine ⟨key, fun n => Function.iterate_fixed ?_ n⟩
  show (applyDailyCosts tz now ((applyDailyCosts tz now s).state)).state =
    (applyDailyCosts tz now s).state
  rw [key]

/-- C3, witness for the amended theorem: repeating cost application on a
well-formed ledger at the same instant changes nothing. -/
theorem c3_costs_idempotent_witness :
    applyDailyCosts 0 (2 * MS_PER_DAY + 7)
        ((applyDailyCosts 0 (2 * MS_PER_DAY + 7)
          { handle := "u", points := 5, accessOn := true,
            lastCostAppliedAt := 2 * MS_PER_DAY, lastCheckInDate := "",
            lastCheckInAt := none, accessOffSince := none, createdAt := 1 }).state) =
      { state := (applyDailyCosts 0 (2 * MS_PER_DAY + 7)
          { handle := "u", points := 5, accessOn := true,
            lastCostAppliedAt := 2 * MS_PER_DAY, lastCheckInDate := "",
            lastCheckInAt := none, accessOffSince := none, createdAt := 1 }).state
        purged := false } :=
  (c3_costs_idempotent 0 (2 * MS_PER_DAY + 7)
    { handle := "u", points := 5, accessOn := true,
      lastCostAppliedAt := 2 * MS_PER_DAY, lastCheckInDate := "",
      lastCheckInAt := none, accessOffSince := none, createdAt := 1 }
    (by decide) (by decide) (by decide)).1

/-! ### Claim C9: the points invariant -/

theorem pointsInv_applyDailyCosts (tz now : ℤ) (s : AccountState)
    (hinv : PointsInv s.points) :
    PointsInv ((applyDailyCosts tz now s).state).points := by
  unfold applyDailyCosts
  dsimp only
  split_ifs <;>
    first
      | exact hinv
      | exact ⟨le_refl 0, 0, by norm_num⟩
      | exact pointsInv_max_roundHalf _

theorem pointsInv_checkin (tz now : ℤ) (handle : String) (s : AccountState)
    (hinv : PointsInv s.points) :
    PointsInv ((checkin tz now handle (some s)).state).points := by
  have h1 : PointsInv
      ((applyDailyCosts tz now (getOrInitState tz now handle (some s))).state).points :=
    pointsInv_applyDailyCosts tz now (getOrInitState tz now handle (some s)) hinv
  simp only [checkin]
  cases h : effectiveLastCheckIn
      ((applyDailyCosts tz now (getOrInitState tz now handle (some s))).state) with
  | none =>
    unfold checkinCredit
    exact pointsInv_roundHalf (by have := h1.1; linarith)
  | some t =>
    dsimp only
    split_ifs
    · exact h1
    · unfold checkinCredit
      exact pointsInv_roundHalf (by have := h1.1; linarith)

theorem pointsInv_toggle (tz now : ℤ) (handle : String) (d : Bool) (s : AccountState)
    (hinv : PointsInv s.points) :
    PointsInv ((toggleAccess tz now handle d (some s)).state).points := by
  have h1 : PointsInv
      ((applyDailyCosts tz now (getOrInitState tz now handle (some s))).state).points :=
    pointsInv_applyDailyCosts tz now (getOrInitState tz now handle (some s)) hinv
  unfold toggleAccess
  dsimp only
  split_ifs <;>
    first
      | exact h1
      | exact pointsInv_max_roundHalf _

theorem pointsInv_redeem (tz now : ℤ) (handle code : String) (rec : RedeemCodeRec)
    (s : AccountState) (hinv : PointsInv s.points) (hcp : 0 ≤ rec.points) :
    PointsInv (((redeem tz now handle code (some rec) (some s)).account.getD s).points) := by
  have h1 : PointsInv
      ((applyDailyCosts tz now (getOrInitState tz now handle (some s))).state).points :=
    pointsInv_applyDailyCosts tz now (getOrInitState tz now handle (some s)) hinv
  unfold redeem
  dsimp only
  split_ifs <;>
    first
      | exact hinv
      | exact pointsInv_roundHalf (by have := h1.1; linarith)

theorem pointsInv_adjust (act : AdjustAction) (amt : ℚ) (s : AccountState)
    (hinv : PointsInv s.points) (hamt : 0 ≤ amt) :
    PointsInv ((((adminAdjustPoints act amt (some s)).1).getD s).points) := by
  unfold adminAdjustPoints
  dsimp only
  split_ifs
  · exact hinv
  · cases act <;> dsimp only
    · exact pointsInv_roundHalf (by have := hinv.1; linarith)
    · exact pointsInv_roundHalf (le_max_left 0 _)
    · exact pointsInv_roundHalf hamt

theorem pointsInv_step (op : LedgerOp) (s : AccountState)
    (hinv : PointsInv s.points) (hv : op.valid = true) :
    PointsInv ((op.step s).points) := by
  cases op with
  | costs tz now => exact pointsInv_applyDailyCosts tz now s hinv
  | checkinOp tz now => exact pointsInv_checkin tz now s.handle s hinv
  | toggleOp tz now d => exact pointsInv_toggle tz now s.handle d s hinv
  | redeemOp tz now cp =>
    have hcp : 0 < cp := by simpa [LedgerOp.valid] using hv
    exact pointsInv_redeem tz now s.handle "C"
      { code := "C", points := cp, used := false, usedBy := none,
        createdAt := 0, usedAt := none } s hinv (le_of_lt hcp)
  | adjustOp act amt =>
    have hamt : 0 ≤ amt := by simpa [LedgerOp.valid] using hv
    exact pointsInv_adjust act amt s hinv hamt

theorem pointsInv_foldl (ops : List LedgerOp) :
    ∀ s : AccountState, PointsInv s.points → (∀ op ∈ ops, op.valid = true) →
      PointsInv ((ops.foldl (fun st op => LedgerOp.step op st) s).points) := by
  induction ops with
  | nil =>
    intro s hs _
    simpa using hs
  | cons o rest ih =>
    intro s hs hv
    simp only [List.foldl_cons]
    exact ih (o.step s) (pointsInv_step o s hs (hv o (List.mem_cons_self o rest)))
      (fun op hop => hv op (List.mem_cons_of_mem o hop))

/-- C9.  Starting from any ledger satisfying the invariant, every sequence
of ledger mutations (cost application, check-in, toggle, redemption of a
positively valued code, administrative add, subtract or set with a
nonnegative amount) keeps the balance nonnegative and a multiple of one
half; the lazily initialized ledger satisfies the invariant as well. -/
theorem c9_points_invariant (ops : List LedgerOp) (s : AccountState)
    (hinv : PointsInv s.points) (hv : ∀ op ∈ ops, op.valid = true) :
    PointsInv ((ops.foldl (fun st op => LedgerOp.step op st) s).points) ∧
    ∀ tz now handle, PointsInv (initialState tz now handle).points := by
  refine ⟨pointsInv_foldl ops s hinv hv, fun tz now handle => ⟨?_, 40, ?_⟩⟩ <;>
    norm_num [initialState]

/-- C9, witness: a five-operation run over a fresh twenty-point ledger
keeps the invariant. -/
theorem c9_points_invariant_witness :
    PointsInv
      (([LedgerOp.costs 0 (2 * MS_PER_DAY),
         LedgerOp.checkinOp 0 (2 * MS_PER_DAY + 5),
         LedgerOp.toggleOp 0 (2 * MS_PER_DAY + 6) false,
         LedgerOp.redeemOp 0 (2 * MS_PER_DAY + 7) 10,
         LedgerOp.adjustOp AdjustAction.subtract 4].foldl (fun st op => LedgerOp.step op st)
        { handle := "u", points := 20, accessOn := true,
          lastCostAppliedAt := 2 * MS_PER_DAY, lastCheckInDate := "",
          lastCheckInAt := none, accessOffSince := none, createdAt := 1 }).points) :=
  (c9_points_invariant
    [LedgerOp.costs 0 (2 * MS_PER_DAY),
     LedgerOp.checkinOp 0 (2 * MS_PER_DAY + 5),
     LedgerOp.toggleOp 0 (2 * MS_PER_DAY + 6) false,
     LedgerOp.redeemOp 0 (2 * MS_PER_DAY + 7) 10,
     LedgerOp.adjustOp AdjustAction.subtract 4]
    { handle := "u", points := 20, accessOn := true,
      lastCostAppliedAt := 2 * MS_PER_DAY, lastCheckInDate := "",
      lastCheckInAt := none, accessOffSince := none, createdAt := 1 }
    ⟨by norm_num, 40, by norm_num⟩ (by decide)).1

/-! ### Claim C10: invite codes bypass the registration flag -/

/-- C10.  The password registration route never consults the global
registrationEnabled flag: its outcome is identical for any two flag values.
With a valid body and an existing, unused, unexpired invite code it creates
the account even with the flag off, marking the invite used; and the OAuth
user-creation path admits a new handle whenever the invite code validates,
registration disabled notwithstanding. -/
theorem c10_invite_bypasses_registration_flag (now : ℤ)
    (code handle password pname : Option String) (randSuffix : String)
    (inviteRec irec : Option InviteCodeRec) (userExists : Bool) (b b2 : Bool)
    (c h p ic : String) (inv : InviteCodeRec)
    (hc : c ≠ "") (hh : h ≠ "") (hp : ¬ p.length < 6)
    (hlen : ¬ (sanitizeRegHandle h randSuffix).length < 3)
    (hbl : usernameBlacklist.contains (sanitizeRegHandle h randSuffix) = false)
    (hsens : sensitivePatterns.any
      (fun pat => containsSubstring (sanitizeRegHandle h randSuffix) pat) = false)
    (hused : inv.used = false)
    (hexp : (match inv.expiresAt with
             | some e => e != 0 && decide (e < now)
             | none => false) = false)
    (hic : ic ≠ "")
    (hvalid : validateInviteCode now (some ic) irec = true) :
    register now code handle password pname randSuffix b inviteRec userExists =
      register now code handle password pname randSuffix b2 inviteRec userExists ∧
    register now (some c) (some h) (some p) pname randSuffix false (some inv) false =
      { result := OpResult.ok (sanitizeRegHandle h randSuffix)
        inviteRec := some { inv with
          used := true
          usedBy := some (sanitizeRegHandle h randSuffix)
          usedAt := some now }
        userCreated := true } ∧
    ensureUser now h (some ic) false false irec =
      { completed := true, userCreated := true,
        inviteRec := markInviteCodeAsUsed now h irec } := by
  refine ⟨rfl, ?_, ?_⟩
  · have hbl2 : sanitizeRegHandle h randSuffix ∉ usernameBlacklist := by
      simpa using hbl
    unfold register
    simp [hc, hh, hp, hlen, hbl2, hsens, hused, hexp]
  · unfold ensureUser
    simp [hic, hvalid]

/-- C10, witness: a registration with invite code INVCODE and handle
newuser succeeds while the registration flag is off, on both the password
route and the OAuth path. -/
theorem c10_invite_bypasses_registration_flag_witness :
    register 1000 (some "INVCODE") (some "newuser") (some "secret123") none "abc" false
        (some { code := "INVCODE", used := false, usedBy := none,
                createdAt := 0, usedAt := none, expiresAt := none }) false =
      { result := OpResult.ok "newuser"
        inviteRec := some { code := "INVCODE", used := true, usedBy := some "newuser",
                            usedAt := some 1000, expiresAt := none, createdAt := 0 }
        userCreated := true } ∧
    ensureUser 1000 "newuser" (some "INVCODE") false false
        (some { code := "INVCODE", used := false, usedBy := none,
                createdAt := 0, usedAt := none, expiresAt := none }) =
      { completed := true, userCreated := true,
        inviteRec := markInviteCodeAsUsed 1000 "newuser"
          (some { code := "INVCODE", used := false, usedBy := none,
                  createdAt := 0, usedAt := none, expiresAt := none }) } := by
  have h := c10_invite_bypasses_registration_flag 1000
    (some "INVCODE") (some "newuser") (some "secret123") none "abc"
    (some { code := "INVCODE", used := false, usedBy := none,
            createdAt := 0, usedAt := none, expiresAt := none })
    (some { code := "INVCODE", used := false, usedBy := none,
            createdAt := 0, usedAt := none, expiresAt := none })
    false true false
    "INVCODE" "newuser" "secret123" "INVCODE"
    { code := "INVCODE", used := false, usedBy := none,
      createdAt := 0, usedAt := none, expiresAt := none }
    (by decide) (by decide) (by decide) (by decide) (by decide) (by decide)
    rfl rfl (by decide) (by decide)
  refine ⟨?_, h.2.2⟩
  have h2 := h.2.1
  rw [h2]
  rfl
